import Mathlib

/-!
Verification development for the pong-game-fuzzy-controller repository
(`src/pong_game.py`).

The Python program is shallowly embedded over `ℚ`: Python floats are
modelled as exact rationals, classes `Ball`, `Paddle`, `Game` become
structures, and each method becomes a function on the structure.  The
external `skfuzzy` library calls are embedded by their documented
semantics: `fuzz.trimf` is the triangular membership function (with the
`x = b ↦ 1` convention of its implementation), and
`ctrl.ControlSystemSimulation.compute` is Mamdani inference with
min-conjunction for `&`, max-aggregation across rules, and centroid
defuzzification over the sampled output universe
`np.arange(-200, 200, 0.1)` (grid point `k/10` for `k ∈ [-2000, 1999]`);
an all-zero aggregated membership makes `compute` raise, which is
modelled as `Option.none`.  `pygame.Rect` truncates its float arguments
toward zero and `colliderect` is the strict axis-aligned overlap test.
-/

namespace Pong

/-- `skfuzzy.trimf` with parameters `[a, b, c]`, evaluated at `x`:
zero outside `(a, c)`, rising on `(a, b)`, one at `b`, falling on `(b, c)`. -/
def trimf (a b c x : ℚ) : ℚ :=
  if x = b then 1
  else if a < x ∧ x < b then (x - a) / (b - a)
  else if b < x ∧ x < c then (c - x) / (c - b)
  else 0

/-- The three breakpoints of a triangular membership function. -/
@[ext] structure TrimfParams where
  a : ℚ
  b : ℚ
  c : ℚ
deriving DecidableEq

/-- Membership degree of `x` in the fuzzy set with parameters `p`. -/
def memOf (p : TrimfParams) (x : ℚ) : ℚ := trimf p.a p.b p.c x

/-- The fuzzy controller state: the membership-function parameters of the two
antecedents (`x_diff`, `y_diff`) and of the consequent (`paddle_velocity`).
The rule base is fixed in the source and is embedded in `aggregatedMF`. -/
@[ext] structure FuzzySystem where
  x_left : TrimfParams
  x_center : TrimfParams
  x_right : TrimfParams
  y_close : TrimfParams
  y_med : TrimfParams
  y_far : TrimfParams
  left_fast : TrimfParams
  left_slow : TrimfParams
  stop : TrimfParams
  right_slow : TrimfParams
  right_fast : TrimfParams
deriving DecidableEq

/-- Class `Ball` of `pong_game.py`. -/
@[ext] structure Ball where
  x : ℚ
  y : ℚ
  speed_x : ℚ
  speed_y : ℚ
  radius : ℚ
deriving DecidableEq

/-- `Ball.move`. -/
def Ball.move (b : Ball) : Ball := { b with x := b.x + b.speed_x, y := b.y + b.speed_y }

/-- `Ball.bounce_x`. -/
def Ball.bounce_x (b : Ball) : Ball := { b with speed_x := b.speed_x * (-1) }

/-- `Ball.bounce_y`. -/
def Ball.bounce_y (b : Ball) : Ball := { b with speed_y := b.speed_y * (-1) }

/-- `Ball.reset`: overwrite position and velocity. -/
def Ball.reset (b : Ball) (x y speed_x speed_y : ℚ) : Ball :=
  { b with x := x, y := y, speed_x := speed_x, speed_y := speed_y }

/-- Class `Paddle` of `pong_game.py`. -/
@[ext] structure Paddle where
  x : ℚ
  y : ℚ
  width : ℚ
  height : ℚ
  speed : ℚ
deriving DecidableEq

/-- `Paddle.move_left`. -/
def Paddle.move_left (p : Paddle) : Paddle := { p with x := p.x - p.speed }

/-- `Paddle.move_right`. -/
def Paddle.move_right (p : Paddle) : Paddle := { p with x := p.x + p.speed }

/-- `Paddle.clamp`: keep the paddle within screen bounds. -/
def Paddle.clamp (p : Paddle) (screen_width : ℚ) : Paddle :=
  { p with x := max 0 (min p.x (screen_width - p.width)) }

/-- Class `Game`: the ball, both paddles, the growth increment, the
(first, last) sample of the consequent universe `np.arange(-200, 200, 0.1)`
set up by `setup_fuzzy`, and the current fuzzy system. The screen size is
the constant `(800, 400)` fixed in `Game.__init__`; rendering state
(colors, surfaces) carries no game logic and is not modelled. -/
@[ext] structure Game where
  ball : Ball
  player_paddle : Paddle
  ai_paddle : Paddle
  growth : ℚ
  velocity_universe_lo : ℚ
  velocity_universe_hi : ℚ
  sys : FuzzySystem
deriving DecidableEq

/-- `np.sign` on rationals. -/
def sign (x : ℚ) : ℚ := if 0 < x then 1 else if x < 0 then -1 else 0

/-- `Game.create_paddle_simulation(current_vel_max)`: re-derive the `center`
input set from the current `abs(ball.speed_x)` and rebuild the five output
sets over `±current_vel_max`; the rule list itself is fixed. -/
def Game.create_paddle_simulation (g : Game) (current_vel_max : ℚ) : Game :=
  { g with sys := { g.sys with
      x_center := if 6 < |g.ball.speed_x| then ⟨-1, 0, 1⟩ else ⟨-10, 0, 10⟩
      left_fast := ⟨-current_vel_max, -current_vel_max, -(current_vel_max * (9/10))⟩
      left_slow := ⟨-(current_vel_max * (9/10)), -(current_vel_max * (7/10)),
        -(current_vel_max * (5/10))⟩
      stop := ⟨-(current_vel_max * (5/10)), 0, current_vel_max * (5/10)⟩
      right_slow := ⟨current_vel_max * (5/10), current_vel_max * (7/10),
        current_vel_max * (9/10)⟩
      right_fast := ⟨current_vel_max * (9/10), current_vel_max, current_vel_max⟩ } }

/-- `Game.setup_fuzzy`: fix the universes, define the base input sets, and
call `create_paddle_simulation(abs(ball.speed_x))`. -/
def Game.setup_fuzzy (g : Game) : Game :=
  Game.create_paddle_simulation
    { g with
      velocity_universe_lo := -200
      velocity_universe_hi := 1999/10
      sys := { g.sys with
        x_left := ⟨-400, -200, 0⟩
        x_center := ⟨-50, 0, 50⟩
        x_right := ⟨0, 200, 400⟩
        y_close := ⟨0, 0, 20⟩
        y_med := ⟨0, 200, 300⟩
        y_far := ⟨200, 200, 400⟩ } }
    |g.ball.speed_x|

/-- `Game.reset_ball`. -/
def Game.reset_ball (g : Game) : Game :=
  Game.create_paddle_simulation
    { g with
      ball := g.ball.reset 400 200 3 3
      player_paddle := { g.player_paddle with speed := 3, x := 500 }
      ai_paddle := { g.ai_paddle with speed := 3, x := 400 } }
    3

/-- `Game.increase_speed`: grow both ball velocity components (preserving
sign via `np.sign`) and both paddle speeds, then rebuild the fuzzy system
for the new `abs(ball.speed_x)`. -/
def Game.increase_speed (g : Game) : Game :=
  let b : Ball := { g.ball with
    speed_x := sign g.ball.speed_x * (|g.ball.speed_x| + g.growth)
    speed_y := sign g.ball.speed_y * (|g.ball.speed_y| + g.growth) }
  Game.create_paddle_simulation
    { g with
      ball := b
      player_paddle := { g.player_paddle with speed := g.player_paddle.speed + g.growth }
      ai_paddle := { g.ai_paddle with speed := g.ai_paddle.speed + g.growth } }
    |b.speed_x|

/-- Index set of the sampled output universe `np.arange(-200, 200, 0.1)`:
sample `k` is the rational `k / 10`, for `k` from `-2000` to `1999`. -/
def velocityIdx : Finset ℤ := Finset.Icc (-2000) 1999

/-- The output-universe sample with index `k`. -/
def gridPt (k : ℤ) : ℚ := (k : ℚ) / 10

/-- The aggregated output membership of the seven-rule Mamdani system of
`create_paddle_simulation`, at inputs `xv = x_diff`, `yv = y_diff` and
output sample `x`: each rule clips its consequent set at the rule strength
(min-conjunction), and the clipped sets are max-aggregated, in source
rule-list order. -/
def aggregatedMF (sys : FuzzySystem) (xv yv x : ℚ) : ℚ :=
  let wL := memOf sys.x_left xv
  let wC := memOf sys.x_center xv
  let wR := memOf sys.x_right xv
  let yC := memOf sys.y_close yv
  let yM := memOf sys.y_med yv
  let yF := memOf sys.y_far yv
  max (min (min wL yF) (memOf sys.left_fast x))
    (max (min (min wL yM) (memOf sys.left_fast x))
      (max (min wC (memOf sys.stop x))
        (max (min (min wR yM) (memOf sys.right_fast x))
          (max (min (min wR yF) (memOf sys.right_fast x))
            (max (min (min wL yC) (memOf sys.left_slow x))
              (min (min wR yC) (memOf sys.right_slow x)))))))

/-- Numerator of the discrete centroid of the aggregated output set. -/
def centroidNum (sys : FuzzySystem) (xv yv : ℚ) : ℚ :=
  ∑ k ∈ velocityIdx, aggregatedMF sys xv yv (gridPt k) * gridPt k

/-- Denominator (total mass) of the discrete centroid. -/
def centroidDen (sys : FuzzySystem) (xv yv : ℚ) : ℚ :=
  ∑ k ∈ velocityIdx, aggregatedMF sys xv yv (gridPt k)

/-- `paddle_sim.compute()` followed by `output['paddle_velocity']`: `none`
models the exception raised when the aggregated membership is identically
zero on the universe (empty defuzzification), otherwise the centroid. -/
def computeOutput (sys : FuzzySystem) (xv yv : ℚ) : Option ℚ :=
  if centroidDen sys xv yv = 0 then none
  else some (centroidNum sys xv yv / centroidDen sys xv yv)

/-- The `try/except` block of `Game.update`: the computed output, with a
zero displacement substituted when inference fails. -/
def fuzzyMove (sys : FuzzySystem) (xv yv : ℚ) : ℚ :=
  (computeOutput sys xv yv).getD 0

/-- Python `int()` truncation toward zero, as applied by `pygame.Rect`. -/
def pyint (q : ℚ) : ℤ := if q < 0 then ⌈q⌉ else ⌊q⌋

/-- An integer `pygame.Rect`. -/
@[ext] structure PyRect where
  x : ℤ
  y : ℤ
  w : ℤ
  h : ℤ
deriving DecidableEq

/-- Build a `pygame.Rect` from rational coordinates (truncating). -/
def mkRect (x y w h : ℚ) : PyRect := ⟨pyint x, pyint y, pyint w, pyint h⟩

/-- `pygame.Rect.colliderect`: strict axis-aligned overlap. -/
def PyRect.overlaps (A B : PyRect) : Prop :=
  A.x < B.x + B.w ∧ A.y < B.y + B.h ∧ B.x < A.x + A.w ∧ B.y < A.y + A.h

instance (A B : PyRect) : Decidable (A.overlaps B) := by
  unfold PyRect.overlaps; infer_instance

/-- `Game.update`, lines 177-182: held-key player movement and clamp. -/
def Game.playerInput (g : Game) (left_key right_key : Bool) : Game :=
  let p := if left_key then g.player_paddle.move_left else g.player_paddle
  let p := if right_key then p.move_right else p
  { g with player_paddle := p.clamp 800 }

/-- `Game.update`, line 185: advance the ball. -/
def Game.ballMove (g : Game) : Game := { g with ball := g.ball.move }

/-- `Game.update`, lines 188-189: reflect horizontal velocity at the side
walls. -/
def Game.wallBounce (g : Game) : Game :=
  if g.ball.x - g.ball.radius ≤ 0 ∨ 800 ≤ g.ball.x + g.ball.radius then
    { g with ball := g.ball.bounce_x }
  else g

/-- `Game.update`, lines 192-199: collision with the player paddle. -/
def Game.playerCollision (g : Game) : Game :=
  if (mkRect g.player_paddle.x g.player_paddle.y g.player_paddle.width
        g.player_paddle.height).overlaps
      (mkRect (g.ball.x - g.ball.radius) (g.ball.y - g.ball.radius)
        (g.ball.radius * 2) (g.ball.radius * 2)) ∧
      0 < g.ball.speed_y then
    Game.increase_speed
      { g with ball := { g.ball.bounce_y with y := g.player_paddle.y - g.ball.radius } }
  else g

/-- `Game.update`, lines 203-210: collision with the AI paddle. -/
def Game.aiCollision (g : Game) : Game :=
  if (mkRect g.ai_paddle.x g.ai_paddle.y g.ai_paddle.width g.ai_paddle.height).overlaps
      (mkRect (g.ball.x - g.ball.radius) (g.ball.y - g.ball.radius)
        (g.ball.radius * 2) (g.ball.radius * 2)) ∧
      g.ball.speed_y < 0 then
    Game.increase_speed
      { g with ball := { g.ball.bounce_y with
          y := g.ai_paddle.y + g.ai_paddle.height + g.ball.radius } }
  else g

/-- `Game.update`, lines 213-218: scoring resets the ball when it crossed
the top (`y < 0`) or bottom (`y > 400`) boundary. -/
def Game.scoring (g : Game) : Game :=
  if g.ball.y < 0 then g.reset_ball
  else if 400 < g.ball.y then g.reset_ball
  else g

/-- `Game.update`, line 222, with the clamp of line 224. -/
def Game.x_diff_val (g : Game) : ℚ :=
  max (-400) (min 400 (g.ball.x - (g.ai_paddle.x + g.ai_paddle.width / 2)))

/-- `Game.update`, line 223, with the clamp of line 225. -/
def Game.y_diff_val (g : Game) : ℚ :=
  max 0 (min 400 |g.ball.y - (g.ai_paddle.y + g.ai_paddle.height / 2)|)

/-- `Game.update`, lines 222-238: fuzzy AI decision, displacement, clamp. -/
def Game.fuzzyDecision (g : Game) : Game :=
  let move := fuzzyMove g.sys g.x_diff_val g.y_diff_val
  { g with ai_paddle := ({ g.ai_paddle with x := g.ai_paddle.x + move }).clamp 800 }

/-- The state reached inside `Game.update` just before the scoring check
(lines 177-210). -/
def Game.preScoring (g : Game) (left_key right_key : Bool) : Game :=
  ((((g.playerInput left_key right_key).ballMove).wallBounce).playerCollision).aiCollision

/-- The state reached inside `Game.update` just before the fuzzy AI
decision (lines 177-218). -/
def Game.preFuzzy (g : Game) (left_key right_key : Bool) : Game :=
  (g.preScoring left_key right_key).scoring

/-- `Game.update`: one full frame. -/
def Game.update (g : Game) (left_key right_key : Bool) : Game :=
  (g.preFuzzy left_key right_key).fuzzyDecision

/-- `Game.__init__`: the initial state (fuzzy fields are overwritten by
`setup_fuzzy`; their pre-`setup_fuzzy` values are arbitrary zeros, matching
attributes that do not yet exist in Python). -/
def Game.init : Game :=
  Game.setup_fuzzy
    { ball := ⟨400, 200, 2, 2, 10⟩
      player_paddle := ⟨500, 360, 100, 15, 2⟩
      ai_paddle := ⟨350, 30, 100, 15, 2⟩
      growth := 1/5
      velocity_universe_lo := 0
      velocity_universe_hi := 0
      sys := ⟨⟨0,0,0⟩, ⟨0,0,0⟩, ⟨0,0,0⟩, ⟨0,0,0⟩, ⟨0,0,0⟩, ⟨0,0,0⟩,
        ⟨0,0,0⟩, ⟨0,0,0⟩, ⟨0,0,0⟩, ⟨0,0,0⟩, ⟨0,0,0⟩⟩ }

/-- The scenario game of C6: ball at `(400, 200)` with velocity `(2, 2)`. -/
def gameC6 : Game := { Game.init with ball := ⟨400, 200, 2, 2, 10⟩ }

/-- The amended scenario game of C6: ball at `(788, 200)` with velocity
`(2, 2)`. -/
def gameC6' : Game := { Game.init with ball := ⟨788, 200, 2, 2, 10⟩ }

/-- A fuzzy system as produced by `setup_fuzzy` at ball speed 2 (used by
concrete scenario games below). -/
def sysW : FuzzySystem :=
  ⟨⟨-400, -200, 0⟩, ⟨-10, 0, 10⟩, ⟨0, 200, 400⟩, ⟨0, 0, 20⟩, ⟨0, 200, 300⟩,
    ⟨200, 200, 400⟩, ⟨-2, -2, -9/5⟩, ⟨-9/5, -7/5, -1⟩, ⟨-1, 0, 1⟩,
    ⟨1, 7/5, 9/5⟩, ⟨9/5, 2, 2⟩⟩

/-- Scenario game for the C3 witness: a ball already beyond the top
boundary, at rest, away from both paddles. -/
def gameC3 : Game :=
  ⟨⟨100, -5, 0, 0, 10⟩, ⟨500, 360, 100, 15, 2⟩, ⟨350, 30, 100, 15, 2⟩, 1/5,
    -200, 1999/10, sysW⟩

/-- Scenario game for the C7 witness: the ball far to the right of the AI
paddle (clamped `x_diff = 400`, at which every `x_diff` membership is
zero, so no rule fires), at rest, away from both paddles. -/
def gameC7 : Game :=
  ⟨⟨600, 200, 0, 0, 10⟩, ⟨500, 360, 100, 15, 2⟩, ⟨0, 30, 100, 15, 2⟩, 1/5,
    -200, 1999/10, sysW⟩

/-- Scenario game for the C2 counterexample: ball speed 250, far beyond
the fixed output universe. -/
def gameC2x : Game :=
  ⟨⟨400, 200, 250, 250, 10⟩, ⟨500, 360, 100, 15, 2⟩, ⟨350, 30, 100, 15, 2⟩, 1/5,
    -200, 1999/10, sysW⟩

/-- Scenario game for the C10 witness: vertical speed exactly zero,
horizontal speed nonzero. -/
def gameC10 : Game := { Game.init with ball := ⟨400, 200, 5, 0, 10⟩ }

/-- Scenario game for the C2 witness, narrow branch: ball speed 7. -/
def gameC2 : Game :=
  ⟨⟨400, 200, 7, 7, 10⟩, ⟨500, 360, 100, 15, 2⟩, ⟨350, 30, 100, 15, 2⟩, 1/5,
    -200, 1999/10, sysW⟩

/-- Scenario game for the C2 witness, wide branch: ball speed 3. -/
def gameC2w : Game :=
  ⟨⟨400, 200, 3, 3, 10⟩, ⟨500, 360, 100, 15, 2⟩, ⟨350, 30, 100, 15, 2⟩, 1/5,
    -200, 1999/10, sysW⟩

/-! ### C4: paddle clamping -/

/-- `Paddle.clamp` produces an `x` inside `[0, bound - width]` whenever
the bound is at least the paddle width. -/
lemma clamp_mem (p : Paddle) (b : ℚ) (h : p.width ≤ b) :
    0 ≤ (p.clamp b).x ∧ (p.clamp b).x ≤ b - p.width := by
  have hc : (0:ℚ) ≤ b - p.width := by linarith
  exact ⟨le_max_left _ _, max_le hc (min_le_right _ _)⟩

/-- C4: for every paddle position and every bound `b ≥ width`,
`Paddle.clamp b` leaves `x` in `[0, b - width]`, and `clamp` is
idempotent. -/
theorem C4_clamp_in_bounds_idempotent (p : Paddle) (b : ℚ) (h : p.width ≤ b) :
    0 ≤ (p.clamp b).x ∧ (p.clamp b).x ≤ b - p.width ∧
      (p.clamp b).clamp b = p.clamp b := by
  have hc : (0:ℚ) ≤ b - p.width := by linarith
  have h2 : max 0 (min p.x (b - p.width)) ≤ b - p.width :=
    max_le hc (min_le_right _ _)
  refine ⟨le_max_left _ _, h2, ?_⟩
  ext
  · show max 0 (min (max 0 (min p.x (b - p.width))) (b - p.width)) = (p.clamp b).x
    rw [min_eq_left h2, ← max_assoc, max_self]
    rfl
  · rfl
  · rfl
  · rfl
  · rfl

/-- C4 witness: the bound and the conclusion hold at the concrete paddle
`(900, 360, 100, 15, 2)` with bound 800. -/
theorem C4_clamp_witness :
    (⟨900, 360, 100, 15, 2⟩ : Paddle).width ≤ 800 ∧
      (0 ≤ ((⟨900, 360, 100, 15, 2⟩ : Paddle).clamp 800).x ∧
        ((⟨900, 360, 100, 15, 2⟩ : Paddle).clamp 800).x ≤ 800 - (⟨900, 360, 100, 15, 2⟩ : Paddle).width ∧
        (((⟨900, 360, 100, 15, 2⟩ : Paddle).clamp 800).clamp 800) = (⟨900, 360, 100, 15, 2⟩ : Paddle).clamp 800) :=
  ⟨by norm_num, C4_clamp_in_bounds_idempotent ⟨900, 360, 100, 15, 2⟩ 800 (by norm_num)⟩

/-! ### C9: `Ball.reset` frame effect -/

/-- C9: `Ball.reset x y sx sy` leaves the radius unchanged and overwrites
exactly position and velocity. -/
theorem C9_reset_preserves_radius (b : Ball) (x y sx sy : ℚ) :
    (b.reset x y sx sy).radius = b.radius ∧ (b.reset x y sx sy).x = x ∧
      (b.reset x y sx sy).y = y ∧ (b.reset x y sx sy).speed_x = sx ∧
      (b.reset x y sx sy).speed_y = sy :=
  ⟨rfl, rfl, rfl, rfl, rfl⟩

/-! ### C10: speed growth on a zero component -/

/-- C10: for every game state, whichever ball velocity component is
exactly 0 stays 0 under `increase_speed` (since `np.sign 0 = 0`), while
both paddle speeds always grow by the increment. -/
theorem C10_zero_component_stays_zero (g : Game) :
    (g.ball.speed_x = 0 → (g.increase_speed).ball.speed_x = 0) ∧
      (g.ball.speed_y = 0 → (g.increase_speed).ball.speed_y = 0) ∧
      (g.increase_speed).player_paddle.speed = g.player_paddle.speed + g.growth ∧
      (g.increase_speed).ai_paddle.speed = g.ai_paddle.speed + g.growth := by
  refine ⟨fun h0 => ?_, fun h1 => ?_, rfl, rfl⟩
  · show sign g.ball.speed_x * (|g.ball.speed_x| + g.growth) = 0
    simp [sign, h0]
  · show sign g.ball.speed_y * (|g.ball.speed_y| + g.growth) = 0
    simp [sign, h1]

/-- C10 witness at a concrete game whose ball has velocity `(5, 0)`: the
zero vertical component stays zero even though the horizontal component
is nonzero, and both paddle speeds grow. -/
theorem C10_witness :
    gameC10.ball.speed_y = 0 ∧
      (gameC10.increase_speed).ball.speed_y = 0 ∧
      (gameC10.increase_speed).player_paddle.speed =
        gameC10.player_paddle.speed + gameC10.growth ∧
      (gameC10.increase_speed).ai_paddle.speed =
        gameC10.ai_paddle.speed + gameC10.growth :=
  ⟨rfl, (C10_zero_component_stays_zero gameC10).2.1 rfl,
    (C10_zero_component_stays_zero gameC10).2.2.1,
    (C10_zero_component_stays_zero gameC10).2.2.2⟩

/-! ### C5: speed growth after N bounces -/

/-- All speed fields after `N` iterations of `increase_speed` from the
initial state. -/
lemma increase_speed_iterate (N : ℕ) :
    ((Game.increase_speed)^[N] Game.init).ball.speed_x = 2 + (N : ℚ) / 5 ∧
      ((Game.increase_speed)^[N] Game.init).ball.speed_y = 2 + (N : ℚ) / 5 ∧
      ((Game.increase_speed)^[N] Game.init).player_paddle.speed = 2 + (N : ℚ) / 5 ∧
      ((Game.increase_speed)^[N] Game.init).ai_paddle.speed = 2 + (N : ℚ) / 5 ∧
      ((Game.increase_speed)^[N] Game.init).growth = 1 / 5 := by
  induction N with
  | zero =>
    refine ⟨?_, ?_, ?_, ?_, rfl⟩ <;>
      · show (2:ℚ) = 2 + ((0:ℕ):ℚ) / 5
        norm_num
  | succ n ih =>
    obtain ⟨h1, h2, h3, h4, h5⟩ := ih
    rw [Function.iterate_succ_apply']
    set t := (Game.increase_speed)^[n] Game.init with ht
    have hpos : (0:ℚ) < 2 + (n : ℚ) / 5 := by positivity
    have e1 : (t.increase_speed).ball.speed_x =
        sign t.ball.speed_x * (|t.ball.speed_x| + t.growth) := rfl
    have e2 : (t.increase_speed).ball.speed_y =
        sign t.ball.speed_y * (|t.ball.speed_y| + t.growth) := rfl
    have e3 : (t.increase_speed).player_paddle.speed = t.player_paddle.speed + t.growth := rfl
    have e4 : (t.increase_speed).ai_paddle.speed = t.ai_paddle.speed + t.growth := rfl
    have e5 : (t.increase_speed).growth = t.growth := rfl
    refine ⟨?_, ?_, ?_, ?_, ?_⟩
    · rw [e1, h1, h5, sign, if_pos hpos, abs_of_pos hpos]; push_cast; ring
    · rw [e2, h2, h5, sign, if_pos hpos, abs_of_pos hpos]; push_cast; ring
    · rw [e3, h3, h5]; push_cast; ring
    · rw [e4, h4, h5]; push_cast; ring
    · rw [e5, h5]

/-- C5: after `N` iterations of `increase_speed` from the initial speeds
`(2.0, 2.0)` with growth `0.2`, `|speed_x| = 2 + 0.2 N` with unchanged
sign, and likewise for `speed_y` and both paddle speeds. -/
theorem C5_speed_growth (N : ℕ) :
    |((Game.increase_speed)^[N] Game.init).ball.speed_x| = 2 + 0.2 * (N : ℚ) ∧
      sign ((Game.increase_speed)^[N] Game.init).ball.speed_x =
        sign Game.init.ball.speed_x ∧
      |((Game.increase_speed)^[N] Game.init).ball.speed_y| = 2 + 0.2 * (N : ℚ) ∧
      sign ((Game.increase_speed)^[N] Game.init).ball.speed_y =
        sign Game.init.ball.speed_y ∧
      ((Game.increase_speed)^[N] Game.init).player_paddle.speed = 2 + 0.2 * (N : ℚ) ∧
      ((Game.increase_speed)^[N] Game.init).ai_paddle.speed = 2 + 0.2 * (N : ℚ) := by
  obtain ⟨h1, h2, h3, h4, _⟩ := increase_speed_iterate N
  have hpos : (0:ℚ) < 2 + (N : ℚ) / 5 := by positivity
  have hs0 : sign Game.init.ball.speed_x = 1 := rfl
  have hs0' : sign Game.init.ball.speed_y = 1 := rfl
  have hval : (2 : ℚ) + (N : ℚ) / 5 = 2 + 0.2 * (N : ℚ) := by norm_num; ring
  refine ⟨?_, ?_, ?_, ?_, ?_, ?_⟩
  · rw [h1, abs_of_pos hpos, hval]
  · rw [h1, hs0, sign, if_pos hpos]
  · rw [h2, abs_of_pos hpos, hval]
  · rw [h2, hs0', sign, if_pos hpos]
  · rw [h3, hval]
  · rw [h4, hval]

/-! ### C6: wall-bounce scenario -/

/-- C6 counterexample: a ball at the screen centre `(400, 200)` moving
`(2, 2)` does NOT hit the right wall on the next tick; after the move and
wall-collision step its velocity is still `(2, 2)` (not `(-2, 2)`) and its
position is `(402, 202)`. -/
theorem C6_counterexample :
    ¬ ((gameC6.ballMove.wallBounce).ball.speed_x = -2) ∧
      (gameC6.ballMove.wallBounce).ball = ⟨402, 202, 2, 2, 10⟩ ∧
      ¬ (gameC6.ballMove.ball.x - gameC6.ballMove.ball.radius ≤ 0 ∨
          800 ≤ gameC6.ballMove.ball.x + gameC6.ballMove.ball.radius) := by
  have hb : gameC6.ballMove.ball = ⟨402, 202, 2, 2, 10⟩ := by
    show gameC6.ball.move = _
    ext <;> norm_num [Ball.move, gameC6]
  have hcond : ¬ (gameC6.ballMove.ball.x - gameC6.ballMove.ball.radius ≤ 0 ∨
      800 ≤ gameC6.ballMove.ball.x + gameC6.ballMove.ball.radius) := by
    rw [hb]; norm_num
  have hwb : gameC6.ballMove.wallBounce = gameC6.ballMove := by
    unfold Game.wallBounce; rw [if_neg hcond]
  refine ⟨?_, ?_, hcond⟩
  · rw [hwb, hb]; norm_num
  · rw [hwb, hb]

/-- C6 (amended): a ball at `(788, 200)` moving `(2, 2)` in the 800×400
field reaches `(790, 202)` on the next tick, its edge touches the right
wall (`790 + 10 ≥ 800`), and the wall-collision step reflects the
horizontal velocity to `(-2, 2)`. -/
theorem C6_amended :
    (gameC6'.ballMove.wallBounce).ball.speed_x = -2 ∧
      (gameC6'.ballMove.wallBounce).ball.speed_y = 2 ∧
      (gameC6'.ballMove.wallBounce).ball.x = 790 ∧
      (gameC6'.ballMove.wallBounce).ball.y = 202 ∧
      800 ≤ gameC6'.ballMove.ball.x + gameC6'.ballMove.ball.radius := by
  have hb : gameC6'.ballMove.ball = ⟨790, 202, 2, 2, 10⟩ := by
    show gameC6'.ball.move = _
    ext <;> norm_num [Ball.move, gameC6']
  have hedge : (800:ℚ) ≤ gameC6'.ballMove.ball.x + gameC6'.ballMove.ball.radius := by
    rw [hb]; norm_num
  have hcond : gameC6'.ballMove.ball.x - gameC6'.ballMove.ball.radius ≤ 0 ∨
      800 ≤ gameC6'.ballMove.ball.x + gameC6'.ballMove.ball.radius := Or.inr hedge
  have hwb : gameC6'.ballMove.wallBounce =
      { gameC6'.ballMove with ball := gameC6'.ballMove.ball.bounce_x } := by
    unfold Game.wallBounce; rw [if_pos hcond]
  refine ⟨?_, ?_, ?_, ?_, hedge⟩
  · rw [hwb]
    show gameC6'.ballMove.ball.bounce_x.speed_x = -2
    rw [hb]; norm_num [Ball.bounce_x]
  · rw [hwb]
    show gameC6'.ballMove.ball.bounce_x.speed_y = 2
    rw [hb]; norm_num [Ball.bounce_x]
  · rw [hwb]
    show gameC6'.ballMove.ball.bounce_x.x = 790
    rw [hb]
    rfl
  · rw [hwb]
    show gameC6'.ballMove.ball.bounce_x.y = 202
    rw [hb]
    rfl

/-! ### C1: output universe bounds vs. output membership functions -/

/-- C1 counterexample: already in the initial state (right after
`setup_fuzzy`, ball speed magnitude 2) the bounds of the output
`paddle_velocity` universe are `-200` and `199.9`, not `±2`. -/
theorem C1_counterexample :
    ¬ (Game.init.velocity_universe_lo = -|Game.init.ball.speed_x| ∧
        Game.init.velocity_universe_hi = |Game.init.ball.speed_x|) := by
  decide

/-- C1 (amended): the output universe is the fixed sampling
`np.arange(-200, 200, 0.1)` — bounds `-200` and `199.9` — created by
`setup_fuzzy` and never rescaled; what tracks the current ball horizontal
speed magnitude `V` after each of `setup_fuzzy`,
`create_paddle_simulation` (as called with `abs(ball.speed_x)`) and
`increase_speed` are the extreme breakpoints of the output membership
functions: `left_fast = [-V, -V, -0.9V]` and `right_fast = [0.9V, V, V]`. -/
theorem C1_amended (g : Game) :
    ((g.setup_fuzzy).velocity_universe_lo = -200 ∧
      (g.setup_fuzzy).velocity_universe_hi = 1999/10 ∧
      (g.setup_fuzzy).sys.left_fast =
        ⟨-|g.ball.speed_x|, -|g.ball.speed_x|, -(|g.ball.speed_x| * (9/10))⟩ ∧
      (g.setup_fuzzy).sys.right_fast =
        ⟨|g.ball.speed_x| * (9/10), |g.ball.speed_x|, |g.ball.speed_x|⟩) ∧
    ((g.create_paddle_simulation |g.ball.speed_x|).velocity_universe_lo =
        g.velocity_universe_lo ∧
      (g.create_paddle_simulation |g.ball.speed_x|).velocity_universe_hi =
        g.velocity_universe_hi ∧
      (g.create_paddle_simulation |g.ball.speed_x|).sys.left_fast =
        ⟨-|g.ball.speed_x|, -|g.ball.speed_x|, -(|g.ball.speed_x| * (9/10))⟩ ∧
      (g.create_paddle_simulation |g.ball.speed_x|).sys.right_fast =
        ⟨|g.ball.speed_x| * (9/10), |g.ball.speed_x|, |g.ball.speed_x|⟩) ∧
    ((g.increase_speed).velocity_universe_lo = g.velocity_universe_lo ∧
      (g.increase_speed).velocity_universe_hi = g.velocity_universe_hi ∧
      (g.increase_speed).sys.left_fast =
        ⟨-|(g.increase_speed).ball.speed_x|, -|(g.increase_speed).ball.speed_x|,
          -(|(g.increase_speed).ball.speed_x| * (9/10))⟩ ∧
      (g.increase_speed).sys.right_fast =
        ⟨|(g.increase_speed).ball.speed_x| * (9/10), |(g.increase_speed).ball.speed_x|,
          |(g.increase_speed).ball.speed_x|⟩) :=
  ⟨⟨rfl, rfl, rfl, rfl⟩, ⟨rfl, rfl, rfl, rfl⟩, ⟨rfl, rfl, rfl, rfl⟩⟩

/-! ### Basic nonnegativity of memberships -/

/-- Triangular memberships are nonnegative. -/
lemma trimf_nonneg (a b c x : ℚ) : 0 ≤ trimf a b c x := by
  unfold trimf
  split_ifs with h1 h2 h3
  · norm_num
  · have := h2.1; have := h2.2
    exact le_of_lt (div_pos (by linarith) (by linarith))
  · have := h3.1; have := h3.2
    exact le_of_lt (div_pos (by linarith) (by linarith))
  · exact le_refl 0

/-- Membership degrees are nonnegative. -/
lemma memOf_nonneg (p : TrimfParams) (x : ℚ) : 0 ≤ memOf p x :=
  trimf_nonneg _ _ _ _

/-- The aggregated Mamdani membership is nonnegative. -/
lemma aggregatedMF_nonneg (sys : FuzzySystem) (xv yv x : ℚ) :
    0 ≤ aggregatedMF sys xv yv x := by
  simp only [aggregatedMF]
  have h7 : 0 ≤ min (min (memOf sys.x_right xv) (memOf sys.y_close yv))
      (memOf sys.right_slow x) :=
    le_min (le_min (memOf_nonneg _ _) (memOf_nonneg _ _)) (memOf_nonneg _ _)
  exact le_trans h7 (le_trans (le_max_right _ _) (le_trans (le_max_right _ _)
    (le_trans (le_max_right _ _) (le_trans (le_max_right _ _)
      (le_trans (le_max_right _ _) (le_max_right _ _))))))

/-- If all three `x_diff` memberships vanish at the input, every rule has
zero strength and the aggregated membership is identically zero. -/
lemma aggregatedMF_zero_of_x_strengths (sys : FuzzySystem) (xv yv x : ℚ)
    (hL : memOf sys.x_left xv = 0) (hC : memOf sys.x_center xv = 0)
    (hR : memOf sys.x_right xv = 0) :
    aggregatedMF sys xv yv x = 0 := by
  refine le_antisymm ?_ (aggregatedMF_nonneg sys xv yv x)
  simp only [aggregatedMF]
  refine max_le ?_ (max_le ?_ (max_le ?_ (max_le ?_ (max_le ?_ (max_le ?_ ?_)))))
  · exact le_trans (min_le_left _ _) (le_trans (min_le_left _ _) (le_of_eq hL))
  · exact le_trans (min_le_left _ _) (le_trans (min_le_left _ _) (le_of_eq hL))
  · exact le_trans (min_le_left _ _) (le_of_eq hC)
  · exact le_trans (min_le_left _ _) (le_trans (min_le_left _ _) (le_of_eq hR))
  · exact le_trans (min_le_left _ _) (le_trans (min_le_left _ _) (le_of_eq hR))
  · exact le_trans (min_le_left _ _) (le_trans (min_le_left _ _) (le_of_eq hL))
  · exact le_trans (min_le_left _ _) (le_trans (min_le_left _ _) (le_of_eq hR))

/-- Inference fails (raises) exactly when the aggregated set has no mass;
in particular it fails when no `x_diff` membership is active. -/
lemma computeOutput_none_of_x_strengths (sys : FuzzySystem) (xv yv : ℚ)
    (hL : memOf sys.x_left xv = 0) (hC : memOf sys.x_center xv = 0)
    (hR : memOf sys.x_right xv = 0) :
    computeOutput sys xv yv = none := by
  have hden : centroidDen sys xv yv = 0 := by
    unfold centroidDen
    exact Finset.sum_eq_zero fun k _ =>
      aggregatedMF_zero_of_x_strengths sys xv yv (gridPt k) hL hC hR
  unfold computeOutput
  rw [if_pos hden]

/-! ### Frame lemmas for the update phases -/

lemma playerInput_ball (g : Game) (l r : Bool) : (g.playerInput l r).ball = g.ball := rfl

lemma playerInput_ai (g : Game) (l r : Bool) :
    (g.playerInput l r).ai_paddle = g.ai_paddle := rfl

lemma playerInput_player_width (g : Game) (l r : Bool) :
    (g.playerInput l r).player_paddle.width = g.player_paddle.width := by
  cases l <;> cases r <;> rfl

/-- The player paddle after `playerInput` is some paddle of unchanged
width, clamped to the screen. -/
lemma playerInput_player_clamped (g : Game) (l r : Bool) :
    ∃ q : Paddle, (g.playerInput l r).player_paddle = q.clamp 800 ∧
      q.width = g.player_paddle.width := by
  cases l <;> cases r <;> exact ⟨_, rfl, rfl⟩

lemma ballMove_player (g : Game) : g.ballMove.player_paddle = g.player_paddle := rfl

lemma ballMove_ai (g : Game) : g.ballMove.ai_paddle = g.ai_paddle := rfl

lemma wallBounce_player (g : Game) : g.wallBounce.player_paddle = g.player_paddle := by
  unfold Game.wallBounce; split_ifs <;> rfl

lemma wallBounce_ai (g : Game) : g.wallBounce.ai_paddle = g.ai_paddle := by
  unfold Game.wallBounce; split_ifs <;> rfl

lemma playerCollision_player_x (g : Game) :
    g.playerCollision.player_paddle.x = g.player_paddle.x := by
  unfold Game.playerCollision; split_ifs <;> rfl

lemma playerCollision_player_width (g : Game) :
    g.playerCollision.player_paddle.width = g.player_paddle.width := by
  unfold Game.playerCollision; split_ifs <;> rfl

lemma playerCollision_ai_width (g : Game) :
    g.playerCollision.ai_paddle.width = g.ai_paddle.width := by
  unfold Game.playerCollision; split_ifs <;> rfl

lemma aiCollision_player_x (g : Game) :
    g.aiCollision.player_paddle.x = g.player_paddle.x := by
  unfold Game.aiCollision; split_ifs <;> rfl

lemma aiCollision_player_width (g : Game) :
    g.aiCollision.player_paddle.width = g.player_paddle.width := by
  unfold Game.aiCollision; split_ifs <;> rfl

lemma aiCollision_ai_width (g : Game) :
    g.aiCollision.ai_paddle.width = g.ai_paddle.width := by
  unfold Game.aiCollision; split_ifs <;> rfl

/-- After `scoring` the player paddle is either repositioned to `x = 500`
(reset, width unchanged) or untouched. -/
lemma scoring_player (g : Game) :
    (g.scoring.player_paddle.x = 500 ∧
        g.scoring.player_paddle.width = g.player_paddle.width) ∨
      g.scoring.player_paddle = g.player_paddle := by
  unfold Game.scoring Game.reset_ball
  split_ifs
  · exact Or.inl ⟨rfl, rfl⟩
  · exact Or.inl ⟨rfl, rfl⟩
  · exact Or.inr rfl

lemma scoring_ai_width (g : Game) : g.scoring.ai_paddle.width = g.ai_paddle.width := by
  unfold Game.scoring Game.reset_ball
  split_ifs <;> rfl

lemma preScoring_player_x (g : Game) (l r : Bool) :
    (g.preScoring l r).player_paddle.x = (g.playerInput l r).player_paddle.x := by
  unfold Game.preScoring
  rw [aiCollision_player_x, playerCollision_player_x, wallBounce_player, ballMove_player]

lemma preScoring_player_width (g : Game) (l r : Bool) :
    (g.preScoring l r).player_paddle.width = g.player_paddle.width := by
  unfold Game.preScoring
  rw [aiCollision_player_width, playerCollision_player_width, wallBounce_player,
    ballMove_player, playerInput_player_width]

lemma preScoring_ai_width (g : Game) (l r : Bool) :
    (g.preScoring l r).ai_paddle.width = g.ai_paddle.width := by
  unfold Game.preScoring
  rw [aiCollision_ai_width, playerCollision_ai_width, wallBounce_ai, ballMove_ai,
    playerInput_ai]

lemma preFuzzy_ai_width (g : Game) (l r : Bool) :
    (g.preFuzzy l r).ai_paddle.width = g.ai_paddle.width := by
  unfold Game.preFuzzy
  rw [scoring_ai_width, preScoring_ai_width]

/-! ### C3: boundary crossing resets the game -/

/-- C3: whenever the ball has crossed the top (`y < 0`) or bottom
(`y > 400`) boundary when the scoring check runs, the update step resets
the ball to the screen centre `(400, 200)` with velocity `(3, 3)`, sets
both paddle speeds to `3.0`, repositions the paddles to their fixed start
abscissas (`500` and `400`), and rebuilds the fuzzy controller for speed
`3.0` (wide `center` set, output sets scaled by `3`). -/
theorem C3_boundary_reset (g : Game) (l r : Bool)
    (h : (g.preScoring l r).ball.y < 0 ∨ 400 < (g.preScoring l r).ball.y) :
    (g.update l r).ball.x = 400 ∧ (g.update l r).ball.y = 200 ∧
      (g.update l r).ball.speed_x = 3 ∧ (g.update l r).ball.speed_y = 3 ∧
      (g.update l r).player_paddle.speed = 3 ∧ (g.update l r).ai_paddle.speed = 3 ∧
      (g.update l r).player_paddle.x = 500 ∧
      ((g.preScoring l r).scoring.player_paddle.x = 500 ∧
        (g.preScoring l r).scoring.ai_paddle.x = 400) ∧
      (g.update l r).sys.x_center = ⟨-10, 0, 10⟩ ∧
      (g.update l r).sys.left_fast = ⟨-3, -3, -(3 * (9/10))⟩ ∧
      (g.update l r).sys.left_slow = ⟨-(3 * (9/10)), -(3 * (7/10)), -(3 * (5/10))⟩ ∧
      (g.update l r).sys.stop = ⟨-(3 * (5/10)), 0, 3 * (5/10)⟩ ∧
      (g.update l r).sys.right_slow = ⟨3 * (5/10), 3 * (7/10), 3 * (9/10)⟩ ∧
      (g.update l r).sys.right_fast = ⟨3 * (9/10), 3, 3⟩ := by
  have hsc : (g.preScoring l r).scoring = (g.preScoring l r).reset_ball := by
    unfold Game.scoring
    rcases h with h1 | h1
    · rw [if_pos h1]
    · have hn : ¬ (g.preScoring l r).ball.y < 0 := by linarith
      rw [if_neg hn, if_pos h1]
  have hu : g.update l r = ((g.preScoring l r).reset_ball).fuzzyDecision := by
    show ((g.preScoring l r).scoring).fuzzyDecision = _
    rw [hsc]
  rw [hu, hsc]
  refine ⟨rfl, rfl, rfl, rfl, rfl, rfl, rfl, ⟨rfl, rfl⟩, ?_, rfl, rfl, rfl, rfl, rfl⟩
  show (if 6 < |(3:ℚ)| then (⟨-1, 0, 1⟩ : TrimfParams) else ⟨-10, 0, 10⟩) = ⟨-10, 0, 10⟩
  rw [if_neg]
  rw [abs_of_pos (by norm_num : (0:ℚ) < 3)]
  norm_num

/-- C3 witness at `gameC3` (ball already past the top boundary). -/
theorem C3_boundary_reset_witness :
    ((gameC3.preScoring false false).ball.y < 0 ∨
        400 < (gameC3.preScoring false false).ball.y) ∧
      (gameC3.update false false).ball.x = 400 ∧
      (gameC3.update false false).ball.y = 200 ∧
      (gameC3.update false false).ball.speed_x = 3 ∧
      (gameC3.update false false).ball.speed_y = 3 ∧
      (gameC3.update false false).player_paddle.speed = 3 ∧
      (gameC3.update false false).ai_paddle.speed = 3 := by
  have h1 : gameC3.playerInput false false = gameC3 := by
    show { gameC3 with player_paddle := gameC3.player_paddle.clamp 800 } = gameC3
    have hx : gameC3.player_paddle.clamp 800 = gameC3.player_paddle := by
      unfold Paddle.clamp
      have : max 0 (min gameC3.player_paddle.x (800 - gameC3.player_paddle.width)) =
          gameC3.player_paddle.x := by
        norm_num [gameC3, min_def, max_def]
      rw [this]
    rw [hx]
  have h2 : gameC3.ballMove = gameC3 := by
    show { gameC3 with ball := gameC3.ball.move } = gameC3
    have hb : gameC3.ball.move = gameC3.ball := by
      unfold Ball.move
      ext <;> norm_num [gameC3]
    rw [hb]
  have h3 : gameC3.wallBounce = gameC3 := by
    unfold Game.wallBounce
    rw [if_neg]
    norm_num [gameC3]
  have h4 : gameC3.playerCollision = gameC3 := by
    unfold Game.playerCollision
    rw [if_neg]
    rintro ⟨-, hv⟩
    norm_num [gameC3] at hv
  have h5 : gameC3.aiCollision = gameC3 := by
    unfold Game.aiCollision
    rw [if_neg]
    rintro ⟨-, hv⟩
    norm_num [gameC3] at hv
  have hpre : gameC3.preScoring false false = gameC3 := by
    unfold Game.preScoring
    rw [h1, h2, h3, h4, h5]
  have hy : (gameC3.preScoring false false).ball.y < 0 := by
    rw [hpre]; norm_num [gameC3]
  obtain ⟨a1, a2, a3, a4, a5, a6, -⟩ :=
    C3_boundary_reset gameC3 false false (Or.inl hy)
  exact ⟨Or.inl hy, a1, a2, a3, a4, a5, a6⟩

/-! ### C7: inference failure falls back to zero displacement -/

/-- C7: if the fuzzy inference yields no defined `paddle_velocity` output
at the inputs of the current frame, the update step substitutes a zero
displacement for the AI paddle and completes normally (the exception is
caught; the resulting state is exactly the pre-decision state with the AI
paddle moved by `0 `and clamped). -/
theorem C7_inference_fallback (g : Game) (l r : Bool)
    (h : computeOutput (g.preFuzzy l r).sys (g.preFuzzy l r).x_diff_val
        (g.preFuzzy l r).y_diff_val = none) :
    fuzzyMove (g.preFuzzy l r).sys (g.preFuzzy l r).x_diff_val
        (g.preFuzzy l r).y_diff_val = 0 ∧
      g.update l r = { g.preFuzzy l r with
        ai_paddle := ({ (g.preFuzzy l r).ai_paddle with
          x := (g.preFuzzy l r).ai_paddle.x + 0 }).clamp 800 } := by
  have hm : fuzzyMove (g.preFuzzy l r).sys (g.preFuzzy l r).x_diff_val
      (g.preFuzzy l r).y_diff_val = 0 := by
    unfold fuzzyMove
    rw [h]
    rfl
  refine ⟨hm, ?_⟩
  show ((g.preFuzzy l r).fuzzyDecision) = _
  simp only [Game.fuzzyDecision]
  rw [hm]

/-- C7 witness: at `gameC7` the clamped `x_diff` input is `400`, where all
three `x_diff` memberships vanish, no rule fires, inference fails, and the
frame displacement is zero. -/
theorem C7_inference_fallback_witness :
    computeOutput (gameC7.preFuzzy false false).sys
        (gameC7.preFuzzy false false).x_diff_val
        (gameC7.preFuzzy false false).y_diff_val = none ∧
      fuzzyMove (gameC7.preFuzzy false false).sys
        (gameC7.preFuzzy false false).x_diff_val
        (gameC7.preFuzzy false false).y_diff_val = 0 := by
  have h1 : gameC7.playerInput false false = gameC7 := by
    show { gameC7 with player_paddle := gameC7.player_paddle.clamp 800 } = gameC7
    have hx : gameC7.player_paddle.clamp 800 = gameC7.player_paddle := by
      unfold Paddle.clamp
      have : max 0 (min gameC7.player_paddle.x (800 - gameC7.player_paddle.width)) =
          gameC7.player_paddle.x := by
        norm_num [gameC7, min_def, max_def]
      rw [this]
    rw [hx]
  have h2 : gameC7.ballMove = gameC7 := by
    show { gameC7 with ball := gameC7.ball.move } = gameC7
    have hb : gameC7.ball.move = gameC7.ball := by
      unfold Ball.move
      ext <;> norm_num [gameC7]
    rw [hb]
  have h3 : gameC7.wallBounce = gameC7 := by
    unfold Game.wallBounce
    rw [if_neg]
    norm_num [gameC7]
  have h4 : gameC7.playerCollision = gameC7 := by
    unfold Game.playerCollision
    rw [if_neg]
    rintro ⟨-, hv⟩
    norm_num [gameC7] at hv
  have h5 : gameC7.aiCollision = gameC7 := by
    unfold Game.aiCollision
    rw [if_neg]
    rintro ⟨-, hv⟩
    norm_num [gameC7] at hv
  have h6 : gameC7.scoring = gameC7 := by
    unfold Game.scoring
    rw [if_neg (by norm_num [gameC7]), if_neg (by norm_num [gameC7])]
  have hpre : gameC7.preFuzzy false false = gameC7 := by
    unfold Game.preFuzzy Game.preScoring
    rw [h1, h2, h3, h4, h5, h6]
  have hxv : gameC7.x_diff_val = 400 := by
    norm_num [Game.x_diff_val, gameC7, min_def, max_def]
  have h : computeOutput (gameC7.preFuzzy false false).sys
      (gameC7.preFuzzy false false).x_diff_val
      (gameC7.preFuzzy false false).y_diff_val = none := by
    rw [hpre, hxv]
    exact computeOutput_none_of_x_strengths _ _ _
      (by norm_num [gameC7, sysW, memOf, trimf])
      (by norm_num [gameC7, sysW, memOf, trimf])
      (by norm_num [gameC7, sysW, memOf, trimf])
  exact ⟨h, (C7_inference_fallback gameC7 false false h).1⟩

/-! ### C8: paddles stay on screen -/

/-- C8: after every full update step (with the in-game paddle width 100),
both paddles' abscissas lie within `[0, screen_width - width]`. -/
theorem C8_paddles_in_bounds (g : Game) (l r : Bool)
    (hpw : g.player_paddle.width = 100) (haw : g.ai_paddle.width = 100) :
    0 ≤ (g.update l r).player_paddle.x ∧
      (g.update l r).player_paddle.x ≤ 800 - (g.update l r).player_paddle.width ∧
      0 ≤ (g.update l r).ai_paddle.x ∧
      (g.update l r).ai_paddle.x ≤ 800 - (g.update l r).ai_paddle.width := by
  -- the AI paddle ends with a fresh clamp of width 100
  have hupdAi : (g.update l r).ai_paddle =
      ({ (g.preFuzzy l r).ai_paddle with
        x := (g.preFuzzy l r).ai_paddle.x + fuzzyMove (g.preFuzzy l r).sys
          (g.preFuzzy l r).x_diff_val (g.preFuzzy l r).y_diff_val }).clamp 800 := rfl
  have hwAi : ({ (g.preFuzzy l r).ai_paddle with
      x := (g.preFuzzy l r).ai_paddle.x + fuzzyMove (g.preFuzzy l r).sys
        (g.preFuzzy l r).x_diff_val (g.preFuzzy l r).y_diff_val } : Paddle).width = 100 := by
    show (g.preFuzzy l r).ai_paddle.width = 100
    rw [preFuzzy_ai_width, haw]
  obtain ⟨hai0, hai1⟩ := clamp_mem ({ (g.preFuzzy l r).ai_paddle with
      x := (g.preFuzzy l r).ai_paddle.x + fuzzyMove (g.preFuzzy l r).sys
        (g.preFuzzy l r).x_diff_val (g.preFuzzy l r).y_diff_val }) 800
    (by rw [hwAi]; norm_num)
  -- the player paddle is whatever `scoring` left, untouched by `fuzzyDecision`
  have hupdP : (g.update l r).player_paddle = (g.preScoring l r).scoring.player_paddle := rfl
  refine ⟨?_, ?_, ?_, ?_⟩
  · rw [hupdP]
    rcases scoring_player (g.preScoring l r) with ⟨hx5, -⟩ | hpe
    · rw [hx5]; norm_num
    · rw [hpe, preScoring_player_x]
      obtain ⟨q, hq, hqw⟩ := playerInput_player_clamped g l r
      rw [hq]
      exact (clamp_mem q 800 (by rw [hqw, hpw]; norm_num)).1
  · rw [hupdP]
    rcases scoring_player (g.preScoring l r) with ⟨hx5, hw5⟩ | hpe
    · rw [hx5, hw5, preScoring_player_width, hpw]; norm_num
    · rw [hpe, preScoring_player_x]
      have hwp : (g.preScoring l r).player_paddle.width = 100 := by
        rw [preScoring_player_width, hpw]
      rw [hwp]
      obtain ⟨q, hq, hqw⟩ := playerInput_player_clamped g l r
      rw [hq]
      have := (clamp_mem q 800 (by rw [hqw, hpw]; norm_num)).2
      have hq100 : q.width = 100 := by rw [hqw, hpw]
      rw [hq100] at this
      exact this
  · rw [hupdAi]; exact hai0
  · rw [hupdAi]
    have hcw : (({ (g.preFuzzy l r).ai_paddle with
        x := (g.preFuzzy l r).ai_paddle.x + fuzzyMove (g.preFuzzy l r).sys
          (g.preFuzzy l r).x_diff_val (g.preFuzzy l r).y_diff_val }).clamp 800).width = 100 :=
      hwAi
    rw [hcw]
    rw [hwAi] at hai1
    exact hai1

/-- C8 witness at the initial game state. -/
theorem C8_paddles_in_bounds_witness :
    Game.init.player_paddle.width = 100 ∧ Game.init.ai_paddle.width = 100 ∧
      (0 ≤ (Game.init.update false false).player_paddle.x ∧
        (Game.init.update false false).player_paddle.x ≤
          800 - (Game.init.update false false).player_paddle.width ∧
        0 ≤ (Game.init.update false false).ai_paddle.x ∧
        (Game.init.update false false).ai_paddle.x ≤
          800 - (Game.init.update false false).ai_paddle.width) :=
  ⟨rfl, rfl, C8_paddles_in_bounds Game.init false false rfl rfl⟩

/-! ### C2: membership-function analysis of the rebuilt controller -/

/-- A triangular membership is positive strictly between its outer
breakpoints. -/
lemma trimf_pos (a b c x : ℚ) (h1 : a < x) (h2 : x < c) : 0 < trimf a b c x := by
  unfold trimf
  split_ifs with g1 g2 g3
  · norm_num
  · exact div_pos (by linarith [g2.1]) (by linarith [g2.1, g2.2])
  · exact div_pos (by linarith [g3.2]) (by linarith [g3.1, g3.2])
  · exfalso
    rcases lt_trichotomy x b with h | h | h
    · exact g2 ⟨h1, h⟩
    · exact g1 h
    · exact g3 ⟨h, h2⟩

/-- `right_slow` vanishes at or below the lower end of its support. -/
lemma trimf_rs_zero_left (V x : ℚ) (hV : 0 < V) (hx : x ≤ V * (5/10)) :
    trimf (V * (5/10)) (V * (7/10)) (V * (9/10)) x = 0 := by
  unfold trimf
  split_ifs with h1 h2 h3
  · exfalso; rw [h1] at hx; linarith
  · exfalso; have := h2.1; linarith
  · exfalso; have := h3.1; linarith
  · rfl

/-- `right_slow` vanishes at or above the upper end of its support. -/
lemma trimf_rs_zero_right (V x : ℚ) (hV : 0 < V) (hx : V * (9/10) ≤ x) :
    trimf (V * (5/10)) (V * (7/10)) (V * (9/10)) x = 0 := by
  unfold trimf
  split_ifs with h1 h2 h3
  · exfalso; rw [h1] at hx; linarith
  · exfalso; have := h2.2; linarith
  · exfalso; have := h3.2; linarith
  · rfl

/-- `right_fast` vanishes at or below the lower end of its support. -/
lemma trimf_rf_zero_left (V x : ℚ) (hV : 0 < V) (hx : x ≤ V * (9/10)) :
    trimf (V * (9/10)) V V x = 0 := by
  unfold trimf
  split_ifs with h1 h2 h3
  · exfalso; rw [h1] at hx; linarith
  · exfalso; have := h2.1; linarith
  · exfalso; have ha := h3.1; have hb := h3.2; linarith
  · rfl

/-- `right_fast` vanishes above the output scale `V`. -/
lemma trimf_rf_zero_right (V x : ℚ) (hV : 0 < V) (hx : V < x) :
    trimf (V * (9/10)) V V x = 0 := by
  unfold trimf
  split_ifs with h1 h2 h3
  · exfalso; rw [h1] at hx; linarith
  · exfalso; have := h2.2; linarith
  · exfalso; have := h3.2; linarith
  · rfl

/-- `stop` vanishes at or beyond the right end of its support. -/
lemma trimf_stop_zero_right (V x : ℚ) (hV : 0 < V) (hx : V * (5/10) ≤ x) :
    trimf (-(V * (5/10))) 0 (V * (5/10)) x = 0 := by
  unfold trimf
  split_ifs with h1 h2 h3
  · exfalso; rw [h1] at hx; linarith
  · exfalso; have := h2.2; linarith
  · exfalso; have := h3.2; linarith
  · rfl

/-- `stop` vanishes at or beyond the left end of its support. -/
lemma trimf_stop_zero_left (V x : ℚ) (hV : 0 < V) (hx : x ≤ -(V * (5/10))) :
    trimf (-(V * (5/10))) 0 (V * (5/10)) x = 0 := by
  unfold trimf
  split_ifs with h1 h2 h3
  · exfalso; rw [h1] at hx; linarith
  · exfalso; have := h2.1; linarith
  · exfalso; have := h3.1; linarith
  · rfl

lemma min_zero_left (a : ℚ) (h : 0 ≤ a) : min 0 a = 0 := min_eq_left h

lemma min_zero_right (a : ℚ) (h : 0 ≤ a) : min a 0 = 0 := min_eq_right h

/-- At input `x_diff = 5` the `left` membership is zero, so the aggregated
membership reduces to the `center`-rule clip joined with the three
`right`-rule clips. -/
lemma aggregated_at5 (sys : FuzzySystem) (y x : ℚ)
    (hL : sys.x_left = ⟨-400, -200, 0⟩) :
    aggregatedMF sys 5 y x =
      max (min (memOf sys.x_center 5) (memOf sys.stop x))
        (max (min (min (memOf sys.x_right 5) (memOf sys.y_med y)) (memOf sys.right_fast x))
          (max (min (min (memOf sys.x_right 5) (memOf sys.y_far y)) (memOf sys.right_fast x))
            (min (min (memOf sys.x_right 5) (memOf sys.y_close y)) (memOf sys.right_slow x)))) := by
  have hL0 : memOf sys.x_left 5 = 0 := by rw [hL]; norm_num [memOf, trimf]
  simp only [aggregatedMF, hL0]
  rw [min_zero_left _ (memOf_nonneg sys.y_far y),
    min_zero_left _ (memOf_nonneg sys.left_fast x),
    min_zero_left _ (memOf_nonneg sys.y_med y),
    min_zero_left _ (memOf_nonneg sys.left_fast x),
    min_zero_left _ (memOf_nonneg sys.y_close y),
    min_zero_left _ (memOf_nonneg sys.left_slow x)]
  have n3 : 0 ≤ min (memOf sys.x_center 5) (memOf sys.stop x) :=
    le_min (memOf_nonneg _ _) (memOf_nonneg _ _)
  have n7 : 0 ≤ min (min (memOf sys.x_right 5) (memOf sys.y_close y))
      (memOf sys.right_slow x) :=
    le_min (le_min (memOf_nonneg _ _) (memOf_nonneg _ _)) (memOf_nonneg _ _)
  rw [max_eq_right n7]
  have nX : 0 ≤ max (min (memOf sys.x_center 5) (memOf sys.stop x))
      (max (min (min (memOf sys.x_right 5) (memOf sys.y_med y)) (memOf sys.right_fast x))
        (max (min (min (memOf sys.x_right 5) (memOf sys.y_far y)) (memOf sys.right_fast x))
          (min (min (memOf sys.x_right 5) (memOf sys.y_close y)) (memOf sys.right_slow x)))) :=
    le_trans n3 (le_max_left _ _)
  rw [max_eq_right nX, max_eq_right nX]

/-- The sampled output universe contains a point of any subinterval of
`[0, 199]` longer than the sampling step. -/
lemma grid_point_exists (lo hi : ℚ) (h0 : 0 ≤ lo) (h199 : hi ≤ 199)
    (hgap : lo + 1/10 < hi) :
    ∃ k : ℤ, k ∈ velocityIdx ∧ lo < gridPt k ∧ gridPt k < hi := by
  refine ⟨⌊(10:ℚ) * lo⌋ + 1, ?_, ?_, ?_⟩
  · rw [velocityIdx, Finset.mem_Icc]
    constructor
    · have h : (0:ℤ) ≤ ⌊(10:ℚ) * lo⌋ := Int.floor_nonneg.mpr (by positivity)
      omega
    · have h1 : (10:ℚ) * lo < 1989 := by linarith
      have h2 : ⌊(10:ℚ) * lo⌋ < 1989 := Int.floor_lt.mpr (by push_cast; linarith)
      omega
  · rw [gridPt, lt_div_iff (by norm_num : (0:ℚ) < 10)]
    have h := Int.lt_floor_add_one ((10:ℚ) * lo)
    push_cast
    linarith
  · rw [gridPt, div_lt_iff (by norm_num : (0:ℚ) < 10)]
    have h := Int.floor_le ((10:ℚ) * lo)
    push_cast
    linarith

/-- Every clamped `y_diff` in `[0, 400)` lies in the support of at least
one `y_diff` fuzzy set. -/
lemma y_cover (y : ℚ) (hy0 : 0 ≤ y) (hy400 : y < 400) :
    0 < trimf 0 0 20 y ∨ 0 < trimf 0 200 300 y ∨ 0 < trimf 200 200 400 y := by
  rcases eq_or_lt_of_le hy0 with h0 | h0
  · left; rw [← h0]; norm_num [trimf]
  rcases lt_or_le y 300 with h3 | h3
  · exact Or.inr (Or.inl (trimf_pos _ _ _ _ h0 h3))
  · exact Or.inr (Or.inr (trimf_pos _ _ _ _ (by linarith) hy400))

/-- Narrow-center case of C2: with the rebuilt system at speed `V > 6`
(and `V` within the representable output range), input `x_diff = 5` and
any in-range `y_diff`, the defuzzified command is strictly positive. -/
lemma narrow_case_pos (sys : FuzzySystem) (V y : ℚ)
    (hL : sys.x_left = ⟨-400, -200, 0⟩) (hC : sys.x_center = ⟨-1, 0, 1⟩)
    (hR : sys.x_right = ⟨0, 200, 400⟩)
    (hyC : sys.y_close = ⟨0, 0, 20⟩) (hyM : sys.y_med = ⟨0, 200, 300⟩)
    (hyF : sys.y_far = ⟨200, 200, 400⟩)
    (hst : sys.stop = ⟨-(V * (5/10)), 0, V * (5/10)⟩)
    (hrs : sys.right_slow = ⟨V * (5/10), V * (7/10), V * (9/10)⟩)
    (hrf : sys.right_fast = ⟨V * (9/10), V, V⟩)
    (hV6 : 6 < V) (hV199 : V ≤ 199)
    (hy0 : 0 ≤ y) (hy400 : y < 400) :
    0 < fuzzyMove sys 5 y := by
  have hV0 : (0:ℚ) < V := by linarith
  have hC0 : memOf sys.x_center 5 = 0 := by rw [hC]; norm_num [memOf, trimf]
  have hR5 : memOf sys.x_right 5 = 1/40 := by
    rw [hR]
    unfold memOf trimf
    norm_num
  -- the aggregated membership vanishes at all samples up to `V/2`
  have hzero : ∀ x : ℚ, x ≤ V * (5/10) → aggregatedMF sys 5 y x = 0 := by
    intro x hx
    rw [aggregated_at5 sys y x hL, hC0]
    have erf : memOf sys.right_fast x = 0 := by
      rw [hrf]; exact trimf_rf_zero_left V x hV0 (by linarith)
    have ers : memOf sys.right_slow x = 0 := by
      rw [hrs]; exact trimf_rs_zero_left V x hV0 hx
    rw [erf, ers]
    rw [min_zero_left _ (memOf_nonneg sys.stop x),
      min_zero_right _ (le_min (memOf_nonneg _ _) (memOf_nonneg _ _)),
      min_zero_right _ (le_min (memOf_nonneg _ _) (memOf_nonneg _ _)),
      min_zero_right _ (le_min (memOf_nonneg _ _) (memOf_nonneg _ _))]
    rw [max_self, max_self, max_self]
  -- some sample in the support of an active rule has positive membership
  obtain ⟨k0, hk0mem, hk0pos, hk0agg⟩ :
      ∃ k : ℤ, k ∈ velocityIdx ∧ 0 < gridPt k ∧
        0 < aggregatedMF sys 5 y (gridPt k) := by
    rcases y_cover y hy0 hy400 with hcl | hmd | hfr
    · -- `close` is active: rule 7 clips `right_slow`
      obtain ⟨k, hk, hlo, hhi⟩ := grid_point_exists (V * (5/10)) (V * (9/10))
        (by positivity) (by linarith) (by linarith)
      refine ⟨k, hk, by linarith, ?_⟩
      rw [aggregated_at5 sys y (gridPt k) hL]
      have h7 : 0 < min (min (memOf sys.x_right 5) (memOf sys.y_close y))
          (memOf sys.right_slow (gridPt k)) := by
        refine lt_min (lt_min ?_ ?_) ?_
        · rw [hR5]; norm_num
        · rw [hyC]; exact hcl
        · rw [hrs]; exact trimf_pos _ _ _ _ hlo hhi
      exact lt_of_lt_of_le h7 (le_trans (le_max_right _ _)
        (le_trans (le_max_right _ _) (le_max_right _ _)))
    · -- `medium` is active: rule 4 clips `right_fast`
      obtain ⟨k, hk, hlo, hhi⟩ := grid_point_exists (V * (9/10)) V
        (by positivity) (by linarith) (by linarith)
      refine ⟨k, hk, by linarith, ?_⟩
      rw [aggregated_at5 sys y (gridPt k) hL]
      have h4 : 0 < min (min (memOf sys.x_right 5) (memOf sys.y_med y))
          (memOf sys.right_fast (gridPt k)) := by
        refine lt_min (lt_min ?_ ?_) ?_
        · rw [hR5]; norm_num
        · rw [hyM]; exact hmd
        · rw [hrf]; exact trimf_pos _ _ _ _ hlo hhi
      exact lt_of_lt_of_le h4 (le_trans (le_max_left _ _) (le_max_right _ _))
    · -- `far` is active: rule 5 clips `right_fast`
      obtain ⟨k, hk, hlo, hhi⟩ := grid_point_exists (V * (9/10)) V
        (by positivity) (by linarith) (by linarith)
      refine ⟨k, hk, by linarith, ?_⟩
      rw [aggregated_at5 sys y (gridPt k) hL]
      have h5 : 0 < min (min (memOf sys.x_right 5) (memOf sys.y_far y))
          (memOf sys.right_fast (gridPt k)) := by
        refine lt_min (lt_min ?_ ?_) ?_
        · rw [hR5]; norm_num
        · rw [hyF]; exact hfr
        · rw [hrf]; exact trimf_pos _ _ _ _ hlo hhi
      exact lt_of_lt_of_le h5 (le_trans (le_max_left _ _)
        (le_trans (le_max_right _ _) (le_max_right _ _)))
  have hden : 0 < centroidDen sys 5 y := by
    unfold centroidDen
    have h := Finset.sum_lt_sum (s := velocityIdx) (f := fun _ : ℤ => (0:ℚ))
      (g := fun k => aggregatedMF sys 5 y (gridPt k))
      (fun i _ => aggregatedMF_nonneg sys 5 y (gridPt i))
      ⟨k0, hk0mem, hk0agg⟩
    rwa [Finset.sum_const_zero] at h
  have hnum : 0 < centroidNum sys 5 y := by
    unfold centroidNum
    have h := Finset.sum_lt_sum (s := velocityIdx) (f := fun _ : ℤ => (0:ℚ))
      (g := fun k => aggregatedMF sys 5 y (gridPt k) * gridPt k)
      (fun i _ => ?_) ⟨k0, hk0mem, mul_pos hk0agg hk0pos⟩
    · rwa [Finset.sum_const_zero] at h
    · show (0:ℚ) ≤ aggregatedMF sys 5 y (gridPt i) * gridPt i
      rcases le_or_lt (gridPt i) 0 with hi | hi
      · rw [hzero (gridPt i) (le_trans hi (by positivity)), zero_mul]
      · exact mul_nonneg (aggregatedMF_nonneg sys 5 y (gridPt i)) (le_of_lt hi)
  unfold fuzzyMove computeOutput
  rw [if_neg (ne_of_gt hden)]
  exact div_pos hnum hden

/-- The `stop` output set is symmetric about zero. -/
lemma trimf_stop_symm (c x : ℚ) : trimf (-c) 0 c (-x) = trimf (-c) 0 c x := by
  unfold trimf
  by_cases h1 : x = 0
  · rw [h1, neg_zero]
  · by_cases h2 : 0 < x ∧ x < c
    · obtain ⟨h2a, h2b⟩ := h2
      rw [if_neg (by intro hh; apply h1; linarith),
        if_pos (⟨by linarith, by linarith⟩ : -c < -x ∧ -x < 0),
        if_neg h1, if_neg (by rintro ⟨-, hh⟩; linarith : ¬(-c < x ∧ x < 0)),
        if_pos ⟨h2a, h2b⟩]
      ring_nf
    · by_cases h3 : -c < x ∧ x < 0
      · obtain ⟨h3a, h3b⟩ := h3
        rw [if_neg (by intro hh; apply h1; linarith),
          if_neg (by rintro ⟨-, hh⟩; linarith : ¬(-c < -x ∧ -x < 0)),
          if_pos (⟨by linarith, by linarith⟩ : 0 < -x ∧ -x < c),
          if_neg h1, if_pos ⟨h3a, h3b⟩]
        ring_nf
      · rw [if_neg (by intro hh; apply h1; linarith),
          if_neg (by rintro ⟨ha, hb⟩; exact h2 ⟨by linarith, by linarith⟩),
          if_neg (by rintro ⟨ha, hb⟩; exact h3 ⟨by linarith, by linarith⟩),
          if_neg h1, if_neg h3, if_neg h2]

/-- The `stop` output set is at least `1/2` on the middle half of its
support. -/
lemma trimf_stop_ge_half (V x : ℚ) (hV : 0 < V) (hx : |x| ≤ V * (1/4)) :
    1/2 ≤ trimf (-(V * (5/10))) 0 (V * (5/10)) x := by
  obtain ⟨hx1, hx2⟩ := abs_le.mp hx
  unfold trimf
  by_cases h0 : x = 0
  · rw [if_pos h0]; norm_num
  rcases lt_or_gt_of_ne h0 with hneg | hpos
  · rw [if_neg h0, if_pos (⟨by linarith, hneg⟩ : -(V * (5/10)) < x ∧ x < 0)]
    rw [le_div_iff (by linarith : (0:ℚ) < 0 - -(V * (5/10)))]
    linarith
  · rw [if_neg h0,
      if_neg (by rintro ⟨-, hh⟩; linarith : ¬(-(V * (5/10)) < x ∧ x < 0)),
      if_pos (⟨hpos, by linarith⟩ : 0 < x ∧ x < V * (5/10))]
    rw [le_div_iff (by linarith : (0:ℚ) < V * (5/10) - 0)]
    linarith

/-- A sum over the sampled universe of an odd summand that also vanishes
at the unmatched left endpoint is zero. -/
lemma sum_velocityIdx_odd_zero (f : ℤ → ℚ) (hodd : ∀ k : ℤ, f (-k) = -f k)
    (hend : f (-2000) = 0) :
    ∑ k ∈ velocityIdx, f k = 0 := by
  have hsub : Finset.Icc (-1999 : ℤ) 1999 ⊆ velocityIdx := by
    rw [velocityIdx]; intro k hk
    rw [Finset.mem_Icc] at *
    omega
  have h1 : ∑ k ∈ velocityIdx, f k = ∑ k ∈ Finset.Icc (-1999 : ℤ) 1999, f k := by
    symm
    apply Finset.sum_subset hsub
    intro k hk hk2
    have hk3 : k = -2000 := by
      rw [velocityIdx, Finset.mem_Icc] at hk
      rw [Finset.mem_Icc] at hk2
      omega
    rw [hk3, hend]
  rw [h1]
  have hf0 : f 0 = 0 := by
    have h := hodd 0
    rw [neg_zero] at h
    linarith
  refine Finset.sum_involution (fun a _ => -a) (fun a _ => ?_) (fun a _ hfa heq => ?_)
    (fun a ha => ?_) (fun a ha => neg_neg a)
  · rw [hodd]; ring
  · apply hfa
    have heq' : -a = a := heq
    have ha0 : a = 0 := by omega
    rw [ha0, hf0]
  · show -a ∈ Finset.Icc (-1999 : ℤ) 1999
    rw [Finset.mem_Icc] at *
    omega

set_option maxRecDepth 40000 in
/-- Wide-center case of C2: with the rebuilt system at speed `2 ≤ V ≤ 6`
and input `x_diff = 5`, the defuzzified command is nonnegative and below
`1/2` (well inside the stop dead zone), for every `y_diff`. -/
lemma wide_case_bound (sys : FuzzySystem) (V y : ℚ)
    (hL : sys.x_left = ⟨-400, -200, 0⟩) (hC : sys.x_center = ⟨-10, 0, 10⟩)
    (hR : sys.x_right = ⟨0, 200, 400⟩)
    (hst : sys.stop = ⟨-(V * (5/10)), 0, V * (5/10)⟩)
    (hrs : sys.right_slow = ⟨V * (5/10), V * (7/10), V * (9/10)⟩)
    (hrf : sys.right_fast = ⟨V * (9/10), V, V⟩)
    (hV2 : 2 ≤ V) (hV6 : V ≤ 6) :
    0 ≤ fuzzyMove sys 5 y ∧ fuzzyMove sys 5 y < 1/2 := by
  have hV0 : (0:ℚ) < V := by linarith
  have hC5 : memOf sys.x_center 5 = 1/2 := by
    rw [hC]; unfold memOf trimf; norm_num
  have hR5 : memOf sys.x_right 5 = 1/40 := by
    rw [hR]; unfold memOf trimf; norm_num
  have hform : ∀ x : ℚ, aggregatedMF sys 5 y x =
      max (min (memOf sys.x_center 5) (memOf sys.stop x))
        (max (min (min (memOf sys.x_right 5) (memOf sys.y_med y)) (memOf sys.right_fast x))
          (max (min (min (memOf sys.x_right 5) (memOf sys.y_far y)) (memOf sys.right_fast x))
            (min (min (memOf sys.x_right 5) (memOf sys.y_close y)) (memOf sys.right_slow x)))) :=
    fun x => aggregated_at5 sys y x hL
  -- below V/2 the aggregate is exactly the clipped stop set
  have hP1 : ∀ x : ℚ, x ≤ V * (5/10) →
      aggregatedMF sys 5 y x = min (memOf sys.x_center 5) (memOf sys.stop x) := by
    intro x hx
    rw [hform x]
    have erf : memOf sys.right_fast x = 0 := by
      rw [hrf]; exact trimf_rf_zero_left V x hV0 (by linarith)
    have ers : memOf sys.right_slow x = 0 := by
      rw [hrs]; exact trimf_rs_zero_left V x hV0 hx
    rw [erf, ers,
      min_zero_right _ (le_min (memOf_nonneg _ _) (memOf_nonneg _ _)),
      min_zero_right _ (le_min (memOf_nonneg _ _) (memOf_nonneg _ _)),
      min_zero_right _ (le_min (memOf_nonneg _ _) (memOf_nonneg _ _)),
      max_self, max_self]
    exact max_eq_left (le_min (memOf_nonneg _ _) (memOf_nonneg _ _))
  -- above V the aggregate vanishes
  have hP2 : ∀ x : ℚ, V < x → aggregatedMF sys 5 y x = 0 := by
    intro x hx
    rw [hform x]
    have est : memOf sys.stop x = 0 := by
      rw [hst]; exact trimf_stop_zero_right V x hV0 (by linarith)
    have erf : memOf sys.right_fast x = 0 := by
      rw [hrf]; exact trimf_rf_zero_right V x hV0 hx
    have ers : memOf sys.right_slow x = 0 := by
      rw [hrs]; exact trimf_rs_zero_right V x hV0 (by linarith)
    rw [est, erf, ers,
      min_zero_right _ (memOf_nonneg _ _),
      min_zero_right _ (le_min (memOf_nonneg _ _) (memOf_nonneg _ _)),
      min_zero_right _ (le_min (memOf_nonneg _ _) (memOf_nonneg _ _)),
      min_zero_right _ (le_min (memOf_nonneg _ _) (memOf_nonneg _ _)),
      max_self, max_self, max_self]
  -- the aggregate always dominates the clipped stop set
  have hP4 : ∀ x : ℚ,
      min (memOf sys.x_center 5) (memOf sys.stop x) ≤ aggregatedMF sys 5 y x := by
    intro x
    rw [hform x]
    exact le_max_left _ _
  -- and exceeds it by at most the right activation 1/40
  have hP3 : ∀ x : ℚ, aggregatedMF sys 5 y x ≤
      min (memOf sys.x_center 5) (memOf sys.stop x) + 1/40 := by
    intro x
    rw [hform x]
    have hc3 : 0 ≤ min (memOf sys.x_center 5) (memOf sys.stop x) :=
      le_min (memOf_nonneg _ _) (memOf_nonneg _ _)
    refine max_le (by linarith) (max_le ?_ (max_le ?_ ?_)) <;>
      · refine le_trans (le_trans (min_le_left _ _) (min_le_left _ _)) ?_
        rw [hR5]
        linarith
  -- the clipped stop set is even
  have heven : ∀ x : ℚ, min (memOf sys.x_center 5) (memOf sys.stop (-x)) =
      min (memOf sys.x_center 5) (memOf sys.stop x) := by
    intro x
    rw [hst]
    simp only [memOf]
    rw [trimf_stop_symm (V * (5/10)) x]
  -- the symmetric part of the numerator cancels
  have hsum0 : ∑ k ∈ velocityIdx,
      min (memOf sys.x_center 5) (memOf sys.stop (gridPt k)) * gridPt k = 0 := by
    apply sum_velocityIdx_odd_zero
    · intro k
      have hg : gridPt (-k) = -gridPt k := by
        unfold gridPt; push_cast; ring
      rw [hg, heven (gridPt k)]
      ring
    · have hstz : memOf sys.stop (gridPt (-2000)) = 0 := by
        rw [hst]
        simp only [memOf]
        have hg : gridPt (-2000) = -200 := by unfold gridPt; norm_num
        rw [hg]
        exact trimf_stop_zero_left V (-200) hV0 (by linarith)
      rw [hstz, min_zero_right _ (memOf_nonneg _ _), zero_mul]
  -- numerator upper bound
  have hnum_le : centroidNum sys 5 y ≤ (5 * V + 1) * (V / 40) := by
    unfold centroidNum
    have hpt : ∀ k ∈ velocityIdx,
        aggregatedMF sys 5 y (gridPt k) * gridPt k ≤
          min (memOf sys.x_center 5) (memOf sys.stop (gridPt k)) * gridPt k +
            (if V * (5/10) < gridPt k ∧ gridPt k ≤ V then V / 40 else 0) := by
      intro k _
      by_cases hx1 : gridPt k ≤ V * (5/10)
      · rw [hP1 _ hx1, if_neg (by rintro ⟨hh, -⟩; linarith)]
        linarith
      · push_neg at hx1
        by_cases hx2 : gridPt k ≤ V
        · rw [if_pos ⟨hx1, hx2⟩]
          have h3 := hP3 (gridPt k)
          have hxpos : (0:ℚ) < gridPt k := by linarith
          have h4 : aggregatedMF sys 5 y (gridPt k) * gridPt k ≤
              (min (memOf sys.x_center 5) (memOf sys.stop (gridPt k)) + 1/40) * gridPt k :=
            mul_le_mul_of_nonneg_right h3 (le_of_lt hxpos)
          have h5 : (min (memOf sys.x_center 5) (memOf sys.stop (gridPt k)) + 1/40) *
              gridPt k =
              min (memOf sys.x_center 5) (memOf sys.stop (gridPt k)) * gridPt k +
                gridPt k * (1/40) := by ring
          have h6 : gridPt k * (1/40) ≤ V / 40 := by linarith
          linarith
        · push_neg at hx2
          rw [hP2 _ hx2, if_neg (by rintro ⟨-, hh⟩; linarith), zero_mul]
          have est : memOf sys.stop (gridPt k) = 0 := by
            rw [hst]; exact trimf_stop_zero_right V _ hV0 (by linarith)
          rw [est, min_zero_right _ (memOf_nonneg _ _), zero_mul]
          linarith
    have hsum := Finset.sum_le_sum hpt
    rw [Finset.sum_add_distrib, hsum0, zero_add] at hsum
    have hind : ∑ k ∈ velocityIdx,
        (if V * (5/10) < gridPt k ∧ gridPt k ≤ V then V / 40 else 0) ≤
          (5 * V + 1) * (V / 40) := by
      have hcard : (velocityIdx.filter
          (fun k => V * (5/10) < gridPt k ∧ gridPt k ≤ V)).card ≤
          (Finset.Ioc ⌊(5:ℚ) * V⌋ ⌊(10:ℚ) * V⌋).card := by
        apply Finset.card_le_card
        intro k hk
        rw [Finset.mem_filter] at hk
        obtain ⟨-, hk1, hk2⟩ := hk
        unfold gridPt at hk1 hk2
        rw [Finset.mem_Ioc]
        constructor
        · rw [Int.floor_lt]
          push_cast
          linarith
        · rw [Int.le_floor]
          push_cast
          linarith
      have hcard2 : (((velocityIdx.filter
          (fun k => V * (5/10) < gridPt k ∧ gridPt k ≤ V)).card : ℕ) : ℚ) ≤ 5 * V + 1 := by
        have h2 : (Finset.Ioc ⌊(5:ℚ) * V⌋ ⌊(10:ℚ) * V⌋).card =
            (⌊(10:ℚ) * V⌋ - ⌊(5:ℚ) * V⌋).toNat := Int.card_Ioc _ _
        have h3 : ((⌊(10:ℚ) * V⌋ - ⌊(5:ℚ) * V⌋).toNat : ℚ) ≤ 5 * V + 1 := by
          rcases le_or_lt (⌊(10:ℚ) * V⌋ - ⌊(5:ℚ) * V⌋) 0 with h | h
          · rw [Int.toNat_of_nonpos h]
            norm_num
            linarith
          · have h4 : ((⌊(10:ℚ) * V⌋ - ⌊(5:ℚ) * V⌋).toNat : ℤ) =
                ⌊(10:ℚ) * V⌋ - ⌊(5:ℚ) * V⌋ := Int.toNat_of_nonneg (le_of_lt h)
            have hf1 := Int.floor_le ((10:ℚ) * V)
            have hf2 := Int.lt_floor_add_one ((5:ℚ) * V)
            have h5 : ((⌊(10:ℚ) * V⌋ - ⌊(5:ℚ) * V⌋).toNat : ℚ) =
                ((⌊(10:ℚ) * V⌋ : ℚ) - (⌊(5:ℚ) * V⌋ : ℚ)) := by
              exact_mod_cast congrArg (fun z : ℤ => (z : ℚ)) h4
            rw [h5]
            linarith
        calc (((velocityIdx.filter
            (fun k => V * (5/10) < gridPt k ∧ gridPt k ≤ V)).card : ℕ) : ℚ) ≤
              (((Finset.Ioc ⌊(5:ℚ) * V⌋ ⌊(10:ℚ) * V⌋).card : ℕ) : ℚ) := by
                exact_mod_cast hcard
          _ = ((⌊(10:ℚ) * V⌋ - ⌊(5:ℚ) * V⌋).toNat : ℚ) := by rw [h2]
          _ ≤ 5 * V + 1 := h3
      rw [← Finset.sum_filter, Finset.sum_const, nsmul_eq_mul]
      exact mul_le_mul_of_nonneg_right hcard2 (by positivity)
    exact le_trans hsum hind
  -- numerator lower bound
  have hnum_ge : 0 ≤ centroidNum sys 5 y := by
    unfold centroidNum
    have hpt : ∀ k ∈ velocityIdx,
        min (memOf sys.x_center 5) (memOf sys.stop (gridPt k)) * gridPt k ≤
          aggregatedMF sys 5 y (gridPt k) * gridPt k := by
      intro k _
      by_cases hx1 : gridPt k ≤ V * (5/10)
      · rw [hP1 _ hx1]
      · push_neg at hx1
        have hxpos : (0:ℚ) ≤ gridPt k := by linarith
        exact mul_le_mul_of_nonneg_right (hP4 (gridPt k)) hxpos
    have hsum := Finset.sum_le_sum hpt
    rw [hsum0] at hsum
    exact hsum
  -- denominator lower bound
  have hden_ge : (5 * V - 1) / 2 ≤ centroidDen sys 5 y := by
    unfold centroidDen
    have hm0 : (0:ℤ) ≤ ⌊V * (5/2)⌋ := Int.floor_nonneg.mpr (by positivity)
    have hm15 : ⌊V * (5/2)⌋ ≤ 15 := by
      have h1 : V * (5/2) ≤ (15:ℚ) := by linarith
      calc ⌊V * (5/2)⌋ ≤ ⌊(15:ℚ)⌋ := Int.floor_mono h1
        _ = 15 := by norm_num
    have hpt : ∀ k ∈ velocityIdx,
        (if |k| ≤ ⌊V * (5/2)⌋ then (1/2 : ℚ) else 0) ≤
          aggregatedMF sys 5 y (gridPt k) := by
      intro k _
      by_cases hk : |k| ≤ ⌊V * (5/2)⌋
      · rw [if_pos hk]
        have hke : |(k : ℚ)| ≤ (⌊V * (5/2)⌋ : ℚ) := by exact_mod_cast abs_le.mpr (abs_le.mp hk)
        have hfl := Int.floor_le (V * (5/2))
        have hxb : |gridPt k| ≤ V * (1/4) := by
          unfold gridPt
          rw [abs_div, abs_of_pos (by norm_num : (0:ℚ) < 10)]
          rw [div_le_iff (by norm_num : (0:ℚ) < 10)]
          linarith
        have hst2 : 1/2 ≤ memOf sys.stop (gridPt k) := by
          rw [hst]
          exact trimf_stop_ge_half V (gridPt k) hV0 hxb
        refine le_trans (le_min (le_of_eq hC5.symm) hst2) (hP4 (gridPt k))
      · rw [if_neg hk]
        exact aggregatedMF_nonneg sys 5 y (gridPt k)
    have hsum := Finset.sum_le_sum hpt
    have hfilter : velocityIdx.filter (fun k => |k| ≤ ⌊V * (5/2)⌋) =
        Finset.Icc (-⌊V * (5/2)⌋) ⌊V * (5/2)⌋ := by
      ext k
      rw [Finset.mem_filter, velocityIdx, Finset.mem_Icc, Finset.mem_Icc]
      rw [abs_le]
      constructor
      · rintro ⟨-, h⟩; exact h
      · rintro ⟨h1, h2⟩
        exact ⟨⟨by omega, by omega⟩, h1, h2⟩
    have hlhs : ∑ k ∈ velocityIdx,
        (if |k| ≤ ⌊V * (5/2)⌋ then (1/2 : ℚ) else 0) =
          ((2 * ⌊V * (5/2)⌋ + 1 : ℤ) : ℚ) * (1/2) := by
      have hstep := Finset.sum_filter (s := velocityIdx)
        (fun k : ℤ => |k| ≤ ⌊V * (5/2)⌋) (fun _ : ℤ => (1/2 : ℚ))
      rw [hfilter] at hstep
      rw [← hstep, Finset.sum_const, nsmul_eq_mul]
      congr 1
      rw [Int.card_Icc]
      have he : ⌊V * (5/2)⌋ + 1 - -⌊V * (5/2)⌋ = 2 * ⌊V * (5/2)⌋ + 1 := by ring
      rw [he]
      have hh : ((2 * ⌊V * (5/2)⌋ + 1).toNat : ℤ) = 2 * ⌊V * (5/2)⌋ + 1 :=
        Int.toNat_of_nonneg (by omega)
      exact_mod_cast congrArg (fun z : ℤ => (z : ℚ)) hh
    rw [hlhs] at hsum
    have hm_lb : 5 * V - 1 ≤ ((2 * ⌊V * (5/2)⌋ + 1 : ℤ) : ℚ) := by
      have h := Int.lt_floor_add_one (V * (5/2))
      push_cast
      linarith
    calc (5 * V - 1) / 2 ≤ ((2 * ⌊V * (5/2)⌋ + 1 : ℤ) : ℚ) * (1/2) := by linarith
      _ ≤ _ := hsum
  have hden_pos : 0 < centroidDen sys 5 y :=
    lt_of_lt_of_le (by linarith) hden_ge
  unfold fuzzyMove computeOutput
  rw [if_neg (ne_of_gt hden_pos)]
  constructor
  · show (0:ℚ) ≤ centroidNum sys 5 y / centroidDen sys 5 y
    exact div_nonneg hnum_ge (le_of_lt hden_pos)
  · show centroidNum sys 5 y / centroidDen sys 5 y < 1/2
    rw [div_lt_iff hden_pos]
    have h1 : (5 * V + 1) * (V / 40) < 1/2 * ((5 * V - 1) / 2) := by
      nlinarith [mul_nonneg (by linarith : (0:ℚ) ≤ V - 2) (by linarith : (0:ℚ) ≤ 6 - V)]
    nlinarith [hnum_le, hden_ge]

/-- C2 counterexample: at the rebuild for ball speed `V = 250 > 6` with
inputs `x_diff = 5`, `y_diff = 250`, the `center` set is `[-1, 0, 1]` and
the offset 5 indeed has zero membership in it, yet the controller does
NOT command a nonzero corrective velocity: the rebuilt `right_fast`
support `(225, 250]` lies entirely above the top sample `199.9` of the
fixed output universe and `close(250) = 0` silences the `right_slow`
rule, so the aggregated output set has no mass, inference fails, and the
fallback commands exactly `0`. -/
theorem C2_counterexample :
    6 < (250:ℚ) ∧
      (gameC2x.create_paddle_simulation 250).sys.x_center = ⟨-1, 0, 1⟩ ∧
      memOf (gameC2x.create_paddle_simulation 250).sys.x_center 5 = 0 ∧
      computeOutput (gameC2x.create_paddle_simulation 250).sys 5 250 = none ∧
      fuzzyMove (gameC2x.create_paddle_simulation 250).sys 5 250 = 0 := by
  have hcen : (gameC2x.create_paddle_simulation 250).sys.x_center = ⟨-1, 0, 1⟩ := by
    show (if 6 < |gameC2x.ball.speed_x| then (⟨-1, 0, 1⟩ : TrimfParams)
      else ⟨-10, 0, 10⟩) = ⟨-1, 0, 1⟩
    rw [if_pos (show (6:ℚ) < |gameC2x.ball.speed_x| by
      rw [show gameC2x.ball.speed_x = (250:ℚ) from rfl,
        abs_of_pos (by norm_num : (0:ℚ) < 250)]
      norm_num)]
  have hzero : ∀ k ∈ velocityIdx,
      aggregatedMF (gameC2x.create_paddle_simulation 250).sys 5 250 (gridPt k) = 0 := by
    intro k hk
    rw [aggregated_at5 (gameC2x.create_paddle_simulation 250).sys 250 (gridPt k)
      (show (gameC2x.create_paddle_simulation 250).sys.x_left = ⟨-400, -200, 0⟩ from rfl)]
    have hC0 : memOf (gameC2x.create_paddle_simulation 250).sys.x_center 5 = 0 := by
      rw [hcen]; unfold memOf trimf; norm_num
    have hyC0 : memOf (gameC2x.create_paddle_simulation 250).sys.y_close 250 = 0 := by
      show memOf ⟨0, 0, 20⟩ 250 = 0
      unfold memOf trimf
      norm_num
    have hrfz : memOf (gameC2x.create_paddle_simulation 250).sys.right_fast (gridPt k) = 0 := by
      show memOf ⟨250 * (9/10), 250, 250⟩ (gridPt k) = 0
      unfold memOf
      apply trimf_rf_zero_left 250 (gridPt k) (by norm_num)
      rw [velocityIdx, Finset.mem_Icc] at hk
      unfold gridPt
      have hk2 : (k:ℚ) ≤ 1999 := by exact_mod_cast hk.2
      linarith
    rw [hC0, hyC0, hrfz]
    rw [min_zero_left _ (memOf_nonneg _ _),
      min_zero_right _ (le_min (memOf_nonneg _ _) (memOf_nonneg _ _)),
      min_zero_right _ (le_min (memOf_nonneg _ _) (memOf_nonneg _ _)),
      min_zero_right _ (memOf_nonneg _ _),
      min_zero_left _ (memOf_nonneg _ _)]
    rw [max_self, max_self, max_self]
  have hden : centroidDen (gameC2x.create_paddle_simulation 250).sys 5 250 = 0 := by
    unfold centroidDen
    exact Finset.sum_eq_zero hzero
  have hnone : computeOutput (gameC2x.create_paddle_simulation 250).sys 5 250 = none := by
    unfold computeOutput
    rw [if_pos hden]
  refine ⟨by norm_num, hcen, by rw [hcen]; unfold memOf trimf; norm_num, hnone, ?_⟩
  unfold fuzzyMove
  rw [hnone]
  rfl

/-- C2 (amended): on every rebuild of the controller (base input sets as
installed by `setup_fuzzy`, `V` the current ball horizontal speed
magnitude, inputs `x_diff = 5` and any in-range `y_diff`): when `V > 6`
AND the rebuilt output sets still meet the fixed `[-200, 199.9]` output
universe (`V ≤ 199` — for much larger `V` no rule can produce output mass
and the fallback commands zero, see the counterexample), the `center` set
is `[-1, 0, 1]`, an offset of 5 has zero membership in it, and the
commanded velocity is strictly positive (a nonzero rightward correction);
when `2 ≤ V ≤ 6` the `center` set is `[-10, 0, 10]`, the offset 5 has
membership `1/2` in it, and the commanded velocity is near zero
(nonnegative and below `1/2`). -/
theorem C2_center_dead_zone (g : Game) (V y : ℚ)
    (hVdef : V = |g.ball.speed_x|)
    (hL : g.sys.x_left = ⟨-400, -200, 0⟩) (hR : g.sys.x_right = ⟨0, 200, 400⟩)
    (hyC : g.sys.y_close = ⟨0, 0, 20⟩) (hyM : g.sys.y_med = ⟨0, 200, 300⟩)
    (hyF : g.sys.y_far = ⟨200, 200, 400⟩)
    (hy0 : 0 ≤ y) (hy400 : y < 400) :
    (6 < V → V ≤ 199 →
      (g.create_paddle_simulation V).sys.x_center = ⟨-1, 0, 1⟩ ∧
      memOf (g.create_paddle_simulation V).sys.x_center 5 = 0 ∧
      0 < fuzzyMove (g.create_paddle_simulation V).sys 5 y) ∧
    (2 ≤ V → V ≤ 6 →
      (g.create_paddle_simulation V).sys.x_center = ⟨-10, 0, 10⟩ ∧
      memOf (g.create_paddle_simulation V).sys.x_center 5 = 1/2 ∧
      0 ≤ fuzzyMove (g.create_paddle_simulation V).sys 5 y ∧
      fuzzyMove (g.create_paddle_simulation V).sys 5 y < 1/2) := by
  constructor
  · intro h6 h199
    have hcen : (g.create_paddle_simulation V).sys.x_center = ⟨-1, 0, 1⟩ := by
      show (if 6 < |g.ball.speed_x| then (⟨-1, 0, 1⟩ : TrimfParams)
        else ⟨-10, 0, 10⟩) = ⟨-1, 0, 1⟩
      rw [← hVdef, if_pos h6]
    refine ⟨hcen, by rw [hcen]; unfold memOf trimf; norm_num, ?_⟩
    exact narrow_case_pos (g.create_paddle_simulation V).sys V y hL hcen hR
      hyC hyM hyF rfl rfl rfl h6 h199 hy0 hy400
  · intro h2 h6
    have hcen : (g.create_paddle_simulation V).sys.x_center = ⟨-10, 0, 10⟩ := by
      show (if 6 < |g.ball.speed_x| then (⟨-1, 0, 1⟩ : TrimfParams)
        else ⟨-10, 0, 10⟩) = ⟨-10, 0, 10⟩
      rw [← hVdef, if_neg (not_lt.mpr h6)]
    refine ⟨hcen, by rw [hcen]; unfold memOf trimf; norm_num, ?_⟩
    exact wide_case_bound (g.create_paddle_simulation V).sys V y hL hcen hR
      rfl rfl rfl h2 h6

/-- C2 witness: both branches at concrete rebuilds — speed 7 (narrow) and
speed 3 (wide), both with `y_diff = 50`. -/
theorem C2_center_dead_zone_witness :
    ((7:ℚ) = |gameC2.ball.speed_x| ∧ (0:ℚ) ≤ 50 ∧ (50:ℚ) < 400 ∧
      (6:ℚ) < 7 ∧ (7:ℚ) ≤ 199) ∧
    ((gameC2.create_paddle_simulation 7).sys.x_center = ⟨-1, 0, 1⟩ ∧
      memOf (gameC2.create_paddle_simulation 7).sys.x_center 5 = 0 ∧
      0 < fuzzyMove (gameC2.create_paddle_simulation 7).sys 5 50) ∧
    ((3:ℚ) = |gameC2w.ball.speed_x| ∧ (2:ℚ) ≤ 3 ∧ (3:ℚ) ≤ 6) ∧
    ((gameC2w.create_paddle_simulation 3).sys.x_center = ⟨-10, 0, 10⟩ ∧
      memOf (gameC2w.create_paddle_simulation 3).sys.x_center 5 = 1/2 ∧
      0 ≤ fuzzyMove (gameC2w.create_paddle_simulation 3).sys 5 50 ∧
      fuzzyMove (gameC2w.create_paddle_simulation 3).sys 5 50 < 1/2) := by
  have h7 : (7:ℚ) = |gameC2.ball.speed_x| := by
    rw [show gameC2.ball.speed_x = (7:ℚ) from rfl,
      abs_of_pos (by norm_num : (0:ℚ) < 7)]
  have h3 : (3:ℚ) = |gameC2w.ball.speed_x| := by
    rw [show gameC2w.ball.speed_x = (3:ℚ) from rfl,
      abs_of_pos (by norm_num : (0:ℚ) < 3)]
  refine ⟨⟨h7, by norm_num, by norm_num, by norm_num, by norm_num⟩, ?_,
    ⟨h3, by norm_num, by norm_num⟩, ?_⟩
  · exact (C2_center_dead_zone gameC2 7 50 h7 rfl rfl rfl rfl rfl
      (by norm_num) (by norm_num)).1 (by norm_num) (by norm_num)
  · exact (C2_center_dead_zone gameC2w 3 50 h3 rfl rfl rfl rfl rfl
      (by norm_num) (by norm_num)).2 (by norm_num) (by norm_num)

end Pong
